import Mathlib

/-!
Verification development for the oc-data-be-challenge collection pipeline.

The Go sources are embedded shallowly:

* `internal/client/data_server.go` (wire decoding): Go `float32` values are
  represented by their IEEE-754 bit patterns (naturals below `2^32`) — the
  decoder only ever moves bits, so this representation is exact.  `time.Time`
  values are represented by whole seconds since the epoch (`Int`), which is
  the resolution the pipeline uses (`time.Unix(ts, 0)`, one-hour cutoffs).
* `encoding/json` is external; its behaviour on the payload shapes the
  producer sends (objects of scalar fields, arrays of byte values, arrays of
  strings, no insignificant whitespace) is modelled by small executable
  parsers below.
* `internal/usecase/datapoint.go` and the repository write/query code are
  embedded as pure functions from decoded records to the repository
  operations they perform.
* `internal/collector/data_server.go` (the periodic trigger) is embedded
  twice: a struct-level model of the synchronization fields for the
  never-started `Stop()` question, and a small-step interleaving model of
  one started generation for the stop/termination questions.
-/

namespace OCData

/-! ## Wire decoding: internal/client/data_server.go -/

/-- Generic decoded-field wrapper: source type `Value[T]` — a value plus the
`Processed` flag set by a successful `UnmarshalJSON`. -/
structure Value (T : Type) where
  value : T
  processed : Bool
deriving DecidableEq, Repr

/-- Source type `client.DataPoint`: the candidate record with per-field
decode tracking. -/
structure ClientDataPoint where
  time : Value Int
  value : Value Nat
  tags : Value (List String)
deriving DecidableEq, Repr

/-- The zero value of `client.DataPoint`, as produced by `DataPoint{}` in Go:
every field unprocessed. -/
def emptyClientDataPoint : ClientDataPoint :=
  ⟨⟨0, false⟩, ⟨0, false⟩, ⟨[], false⟩⟩

/-- Source: `DataPoint.IsValid` — completeness check, in source order
time, value, tags; the first unprocessed field yields the error naming it. -/
def ClientDataPoint.isValid (dp : ClientDataPoint) : Except String Unit :=
  if dp.time.processed = false then .error "time field is not Processed"
  else if dp.value.processed = false then .error "value field is not Processed"
  else if dp.tags.processed = false then .error "tags field is not Processed"
  else .ok ()

/-- Parse a nonempty run of ASCII decimal digits as a `Nat`. -/
def parseDigits (cs : List Char) : Option Nat :=
  if cs = [] then none
  else if cs.all Char.isDigit then
    some (cs.foldl (fun acc c => 10 * acc + (c.toNat - 48)) 0)
  else none

/-- Models `strconv.ParseInt(s, 10, 64)`: optional sign, a nonempty run of
decimal digits, value within the signed 64-bit range.  Note the input is the
RAW bytes handed to the caller — quotes, if present, are part of it. -/
def goParseInt64 (cs : List Char) : Option Int :=
  match cs with
  | '+' :: rest =>
    (parseDigits rest).bind (fun n => if n ≤ 2 ^ 63 - 1 then some (Int.ofNat n) else none)
  | '-' :: rest =>
    (parseDigits rest).bind (fun n => if n ≤ 2 ^ 63 then some (-(Int.ofNat n)) else none)
  | _ =>
    (parseDigits cs).bind (fun n => if n ≤ 2 ^ 63 - 1 then some (Int.ofNat n) else none)

/-- Prepend a character to the first group of a grouping. -/
def consHead (c : Char) : List (List Char) → List (List Char)
  | [] => [[c]]
  | g :: gs => (c :: g) :: gs

/-- Split a character sequence at commas that sit at top nesting level and
outside string literals: the tokenization `encoding/json` effectively
performs over an object body or an array body.  `d` is the current bracket
depth, `inStr` whether we are inside a string literal. -/
def splitTop : List Char → Nat → Bool → List (List Char)
  | [], _, _ => [[]]
  | c :: rest, d, true => consHead c (splitTop rest d (c != '"'))
  | c :: rest, d, false =>
    if c = '"' then consHead c (splitTop rest d true)
    else if c = '[' ∨ c = '\x7b' then consHead c (splitTop rest (d + 1) false)
    else if c = ']' ∨ c = '\x7d' then consHead c (splitTop rest (d - 1) false)
    else if c = ',' ∧ d = 0 then [] :: splitTop rest 0 false
    else consHead c (splitTop rest d false)

/-- Models `json.Unmarshal(data, &b)` for `b []byte` in the array-of-numbers
form the producer uses: `[n0,n1,...]`, each element a decimal integer that
fits in a byte (Go errors on an element above 255). -/
def jsonUnmarshalByteArray (cs : List Char) : Option (List Nat) :=
  match cs with
  | '[' :: rest =>
    if rest.getLast? = some ']' then
      let interior := rest.dropLast
      if interior = [] then some []
      else (splitTop interior 0 false).mapM
        (fun p => (parseDigits p).bind (fun n => if n ≤ 255 then some n else none))
    else none
  | _ => none

/-- Parse a JSON string literal (no escape sequences) into its contents. -/
def parseJSONString (cs : List Char) : Option String :=
  match cs with
  | '"' :: rest =>
    if rest.getLast? = some '"' then
      let interior := rest.dropLast
      if interior.all (fun c => c != '"' && c != '\\') then some ⟨interior⟩ else none
    else none
  | _ => none

/-- Models `json.Unmarshal(data, &v)` for `v []string`. -/
def jsonUnmarshalStringArray (cs : List Char) : Option (List String) :=
  match cs with
  | '[' :: rest =>
    if rest.getLast? = some ']' then
      let interior := rest.dropLast
      if interior = [] then some []
      else (splitTop interior 0 false).mapM parseJSONString
    else none
  | _ => none

/-- Source: `binary.LittleEndian.Uint32` — recombine four bytes, least
significant first. -/
def leUint32 (b0 b1 b2 b3 : Nat) : Nat :=
  b0 + 256 * b1 + 65536 * b2 + 16777216 * b3

/-- The little-endian byte encoding of a float32 bit pattern — the producer
side encoding (helper `float32ToBytes` in `data_server_test.go`). -/
def float32ToBytes (bits : Nat) : List Nat :=
  [bits % 256, bits / 256 % 256, bits / 65536 % 256, bits / 16777216 % 256]

/-- The byte-level core of `DataPointValue.UnmarshalJSON` after
`json.Unmarshal` produced the byte slice `b`: exactly four bytes are
accepted and reinterpreted via
`math.Float32frombits(binary.LittleEndian.Uint32(b))`; no NaN or range
check follows.  At the bit-pattern level `Float32frombits` is the
identity, so the result is the recombined 32-bit pattern. -/
def float32FromLEBytes (b : List Nat) : Option Nat :=
  match b with
  | [b0, b1, b2, b3] => some (leUint32 b0 b1 b2 b3)
  | _ => none

/-- Structured form of the errors `DataPointValue.UnmarshalJSON` can return.
`invalidLength n` carries the number the source formats into
"expected 4 bytes, got %d bytes" — which the source computes as `len(data)`,
the length of the RAW JSON text, not `len(b)`. -/
inductive ValueDecodeErr where
  | unmarshal (raw : String)
  | invalidLength (reported : Nat)
deriving DecidableEq, Repr

/-- The message text the source formats for each error. -/
def ValueDecodeErr.message : ValueDecodeErr → String
  | .unmarshal raw => "failed to unmarshal DataPointValue, raw: " ++ raw
  | .invalidLength n =>
    "invalid data length for DataPointValue, expected 4 bytes, got " ++ toString n ++ " bytes"

/-- Source: `DataPointValue.UnmarshalJSON` — `json.Unmarshal` into a byte
slice, the length-4 check (whose error reports `len(data)`), then the
little-endian float32 reinterpretation. -/
def dataPointValueUnmarshalJSON (data : String) : Except ValueDecodeErr (Value Nat) :=
  match jsonUnmarshalByteArray data.data with
  | none => .error (.unmarshal data)
  | some b =>
    match float32FromLEBytes b with
    | none => .error (.invalidLength data.length)
    | some v => .ok ⟨v, true⟩

/-- Source: `DataPointTime.UnmarshalJSON` — `strconv.ParseInt(string(data),
10, 64)` on the raw JSON bytes of the field, then `time.Unix(ts, 0)`. -/
def dataPointTimeUnmarshalJSON (data : String) : Except String (Value Int) :=
  match goParseInt64 data.data with
  | none => .error ("failed to parse DataPointTime, raw: " ++ data)
  | some ts => .ok ⟨ts, true⟩

/-- Source: `Value[[]string].UnmarshalJSON` for the tags field —
`json.Unmarshal` into `[]string`, marking the field processed on success. -/
def tagsUnmarshalJSON (data : String) : Except String (Value (List String)) :=
  match jsonUnmarshalStringArray data.data with
  | none => .error ("failed to unmarshal value, raw: " ++ data)
  | some ts => .ok ⟨ts, true⟩

/-- Split a decoded field at its first top-level colon into raw key and raw
value, tracking string literals. -/
def splitKV : List Char → Bool → Option (List Char × List Char)
  | [], _ => none
  | c :: rest, true => (splitKV rest (c != '"')).map (fun p => (c :: p.1, p.2))
  | c :: rest, false =>
    if c = ':' then some ([], rest)
    else if c = '"' then (splitKV rest true).map (fun p => (c :: p.1, p.2))
    else (splitKV rest false).map (fun p => (c :: p.1, p.2))

/-- One field of the decoded object dispatched to the matching
`UnmarshalJSON`, as `encoding/json` does while decoding into
`client.DataPoint`; unknown keys are ignored.  The error returned is the
unmarshaler's own error, which `json.Decoder.Decode` surfaces unchanged. -/
def decodeField (dp : ClientDataPoint) (f : List Char) : Except String ClientDataPoint :=
  match splitKV f false with
  | none => .error "json syntax error"
  | some (k, v) =>
    if k = "\"time\"".data then
      match dataPointTimeUnmarshalJSON ⟨v⟩ with
      | .error e => .error e
      | .ok t => .ok { dp with time := t }
    else if k = "\"value\"".data then
      match dataPointValueUnmarshalJSON ⟨v⟩ with
      | .error e => .error e.message
      | .ok w => .ok { dp with value := w }
    else if k = "\"tags\"".data then
      match tagsUnmarshalJSON ⟨v⟩ with
      | .error e => .error e
      | .ok g => .ok { dp with tags := g }
    else .ok dp

/-- Fold `decodeField` over the fields of the object, stopping at the first
error as the standard decoder does. -/
def decodeFields (dp : ClientDataPoint) : List (List Char) → Except String ClientDataPoint
  | [] => .ok dp
  | f :: rest =>
    match decodeField dp f with
    | .error e => .error e
    | .ok dp2 => decodeFields dp2 rest

/-- Source: `DataServerClient.decodeDatapointBody` — decode the response
body into a `client.DataPoint` (fields not present in the body keep
`Processed = false`), wrap a decoder error as
"failed to decode response body, …", then check `IsValid` and wrap its
error as "invalid datapoint received: …". -/
def decodeDatapointBody (body : String) : Except String ClientDataPoint :=
  let decoded : Except String ClientDataPoint :=
    match body.data with
    | '\x7b' :: rest =>
      if rest.getLast? = some '\x7d' then
        let interior := rest.dropLast
        decodeFields emptyClientDataPoint
          (if interior = [] then [] else splitTop interior 0 false)
      else .error "json syntax error"
    | _ => .error "json syntax error"
  match decoded with
  | .error e => .error ("failed to decode response body, " ++ e)
  | .ok dp =>
    match dp.isValid with
    | .error e => .error ("invalid datapoint received: " ++ e)
    | .ok _ => .ok dp

/-- Source: `DataServerClient.DataPoint` on a 200 response carrying `body`:
delegate to `decodeDatapointBody` (wrapping its error), then re-check
`IsValid`. -/
def dataServerClientDataPoint (body : String) : Except String ClientDataPoint :=
  match decodeDatapointBody body with
  | .error e => .error ("failed to decode datapoint body, " ++ e)
  | .ok dp =>
    match dp.isValid with
    | .error e => .error ("invalid datapoint received: " ++ e)
    | .ok _ => .ok dp

/-! ## Usecase and repository: internal/usecase/datapoint.go, repository -/

/-- Source type `dto.DataPoint`: the record handed to the repository. -/
structure DtoDataPoint where
  time : Int
  value : Nat
  tags : List String
  receivedAt : Int
deriving DecidableEq, Repr

/-- One repository write: the logical table it targets and the record. -/
structure WriteOp where
  table : String
  point : DtoDataPoint
deriving DecidableEq, Repr

/-- The reason attached to the rejecting branch that produced a discard
write: the "timestamp too old" log line, or the "tag" log line carrying the
matched tag. -/
inductive RejectReason where
  | stale
  | blockedTag (tag : String)
deriving DecidableEq, Repr

/-- The tags loop of `Collect`: the first tag equal to "system" or
"suspect", scanned in order. -/
def firstBlockedTag : List String → Option String
  | [] => none
  | t :: rest => if t = "system" ∨ t = "suspect" then some t else firstBlockedTag rest

/-- Source: `DataPointUseCase.Collect` after a successful `Read`, with
`time.Now()` abstracted as the single instant `now` (seconds).  Returns the
branch taken (`none` = accepted) and the repository operations performed —
each branch performs exactly one write, building the `dto.DataPoint` from
the decoded values with `ReceivedAt = now`.  Staleness is
`dp.Time.Value.Before(now.Add(-1 * time.Hour))`, i.e. strictly less than
`now - 3600`. -/
def collect (dp : ClientDataPoint) (now : Int) : Option RejectReason × List WriteOp :=
  let pt : DtoDataPoint := ⟨dp.time.value, dp.value.value, dp.tags.value, now⟩
  if dp.time.value < now - 3600 then
    (some .stale, [⟨"datapoint_discarded", pt⟩])
  else
    match firstBlockedTag dp.tags.value with
    | some t => (some (.blockedTag t), [⟨"datapoint_discarded", pt⟩])
    | none => (none, [⟨"datapoint", pt⟩])

/-- Source: `DataPointUseCase.Read` — fetch and decode one record,
wrapping an error as "failed to get datapoint from data server: …". -/
def usecaseRead (body : String) : Except String ClientDataPoint :=
  match dataServerClientDataPoint body with
  | .error e => .error ("failed to get datapoint from data server: " ++ e)
  | .ok dp => .ok dp

/-- `DataPointUseCase.Collect` end to end from the producer response body:
`Read` (an error aborts with no write, wrapped as
"failed to read datapoint: …"), then classification and the single write. -/
def collectFromBody (body : String) (now : Int) :
    Except String (Option RejectReason × List WriteOp) :=
  match usecaseRead body with
  | .error e => .error ("failed to read datapoint: " ++ e)
  | .ok dp => .ok (collect dp now)

/-- A value stored in one field of an InfluxDB point. -/
inductive FieldValue where
  | num (bits : Nat)
  | strs (ts : List String)
  | time (t : Int)
deriving DecidableEq, Repr

/-- The point handed to `influxdb3.NewPoint`: table, field map, and the
timestamp under which it is persisted. -/
structure InfluxPoint where
  table : String
  fields : List (String × FieldValue)
  timestamp : Int
deriving DecidableEq, Repr

/-- Source: `repository.DataPoint.write` — builds the Influx point with the
fields value/tags/received_at and `point.Time` as the point timestamp. -/
def repoWrite (point : DtoDataPoint) (table : String) : InfluxPoint :=
  ⟨table,
    [("value", .num point.value), ("tags", .strs point.tags),
      ("received_at", .time point.receivedAt)],
    point.time⟩

/-- Source: `repository.DataPoint.Write` — the accepted destination. -/
def repoWriteAccepted (point : DtoDataPoint) : InfluxPoint :=
  repoWrite point "datapoint"

/-- Source: `repository.DataPoint.WriteDiscard` — the rejected destination. -/
def repoWriteDiscard (point : DtoDataPoint) : InfluxPoint :=
  repoWrite point "datapoint_discarded"

/-- Source: the SQL text built by `repository.DataPoint.Query` for the given
optional bounds (the bound values are passed separately as parameters and do
not affect the text). -/
def dataPointQuerySQL (start untl : Option Int) : String :=
  let q := "SELECT * FROM datapoint"
  let q := if start.isSome then q ++ " WHERE time >= $start" else q
  let q := if untl.isSome then q ++ " AND time <= $until" else q
  q ++ " ORDER BY time DESC"

/-! ## Scheduler: internal/collector/data_server.go (PeriodicTrigger)

Struct-level model of the synchronization fields, for lifecycle questions
that involve no running goroutine. -/

/-- A Go channel of empty-struct elements: capacity, current number of
buffered elements, and whether it has been closed. -/
structure Chan where
  cap : Nat
  buffered : Nat
  closed : Bool
deriving DecidableEq, Repr

/-- Semantics of a channel send when no receiver is blocked on the channel:
sending on a closed channel aborts the program, sending with a full buffer
blocks forever (both `none`); otherwise the element is buffered. -/
def Chan.send (ch : Chan) : Option Chan :=
  if ch.closed then none
  else if ch.buffered < ch.cap then some { ch with buffered := ch.buffered + 1 }
  else none

/-- The synchronization fields of `PeriodicTrigger` (the task, interval and
logger carry no lifecycle state and are omitted). -/
structure PeriodicTrigger where
  stopCh : Chan
  startOnceUsed : Bool
  stopOnceUsed : Bool
  ctxCancelled : Bool
deriving DecidableEq, Repr

/-- Source: `PeriodicTrigger.reset` — a fresh capacity-1 stop channel, fresh
one-shot guards, a fresh cancellable context. -/
def PeriodicTrigger.reset (_pt : PeriodicTrigger) : PeriodicTrigger :=
  ⟨⟨1, 0, false⟩, false, false, false⟩

/-- Source: `NewPeriodicTrigger` — construct and `reset`. -/
def newPeriodicTrigger : PeriodicTrigger :=
  PeriodicTrigger.reset ⟨⟨1, 0, false⟩, false, false, false⟩

/-- Source: the body of `PeriodicTrigger.stop` — send on `stopCh`, close it,
then `reset`.  `none` means the send aborted or blocked. -/
def PeriodicTrigger.stopBody (pt : PeriodicTrigger) : Option PeriodicTrigger :=
  (pt.stopCh.send).map (fun ch =>
    PeriodicTrigger.reset { pt with stopCh := { ch with closed := true } })

/-- Source: `PeriodicTrigger.Stop` — `stopOnce.Do(pt.stop)`: only the first
call in a generation runs the body. -/
def PeriodicTrigger.StopCall (pt : PeriodicTrigger) : Option PeriodicTrigger :=
  if pt.stopOnceUsed then some pt
  else PeriodicTrigger.stopBody { pt with stopOnceUsed := true }

/-! Small-step interleaving model of one STARTED generation, for the claims
about what `Stop()` waits for.  After `Start()` ran the immediate
invocation, `start` has created the ticker, spawned the goroutine that
listens for the stop signal, and entered the `for`/`select` loop.  Each
action below is one atomic step of one of the participants; an action maps
the state to `none` when it is not enabled (the participant is blocked).

The loop has no exit: the `break` in `case <-doneCh` only leaves the
`select`, and nothing ever sends on or closes `doneCh`, so neither that
case nor loop termination can occur — accordingly the model gives the loop
exactly one action, receiving a pending tick and invoking the task.
Likewise the listener goroutine's final `<-doneCh` blocks forever, so
`ListenerPC.waitDone` has no outgoing action. -/

/-- Program counter of the stop-listener goroutine spawned by `start`. -/
inductive ListenerPC where
  | waiting
  | toCancel
  | toStopTicker
  | waitDone
deriving DecidableEq, Repr

/-- Interleaving state of one started generation. -/
structure SchedState where
  stopChBuffered : Nat
  stopChClosed : Bool
  stopOnceUsed : Bool
  loopRunning : Bool
  listener : ListenerPC
  tickerActive : Bool
  tickPending : Bool
  ctxCancelled : Bool
  stopReturned : Bool
  ptReinitialized : Bool
  invocations : Nat
  invocationsAfterStopReturn : Nat
deriving DecidableEq, Repr

/-- The state right after `start` ran the immediate synchronous invocation,
created the ticker, spawned the listener and entered the loop. -/
def startedState : SchedState :=
  ⟨0, false, false, true, .waiting, true, false, false, false, false, 1, 0⟩

/-- One atomic step of one participant. -/
inductive SchedAction where
  | tickFire
  | loopRecvTick
  | listenerRecv
  | listenerCancelCtx
  | listenerStopTicker
  | stopCall
deriving DecidableEq, Repr

/-- The step function.  `tickFire`: the runtime timer places a tick (only
while the ticker is active and no tick is pending — a ticker never queues
more than one).  `loopRecvTick`: the loop's `select` receives the tick and
invokes the task.  `listenerRecv/CancelCtx/StopTicker`: the listener
goroutine receives the stop signal (possible once the channel holds a value
or is closed), cancels the task context, stops the ticker, then blocks on
`doneCh` forever.  `stopCall`: the whole of `Stop()` on its first use —
buffer the signal (enabled because the capacity-1 buffer is free), close
the channel, `reset` the struct fields, and return; it contains no step
that waits on the loop or the listener. -/
def schedStep (s : SchedState) : SchedAction → Option SchedState
  | .tickFire =>
    if s.tickerActive ∧ ¬s.tickPending then some { s with tickPending := true } else none
  | .loopRecvTick =>
    if s.loopRunning ∧ s.tickPending then
      some { s with
        tickPending := false,
        invocations := s.invocations + 1,
        invocationsAfterStopReturn :=
          s.invocationsAfterStopReturn + (if s.stopReturned then 1 else 0) }
    else none
  | .listenerRecv =>
    if s.listener = .waiting ∧ (0 < s.stopChBuffered ∨ s.stopChClosed) then
      some { s with listener := .toCancel, stopChBuffered := s.stopChBuffered - 1 }
    else none
  | .listenerCancelCtx =>
    if s.listener = .toCancel then
      some { s with listener := .toStopTicker, ctxCancelled := true }
    else none
  | .listenerStopTicker =>
    if s.listener = .toStopTicker then
      some { s with listener := .waitDone, tickerActive := false }
    else none
  | .stopCall =>
    if ¬s.stopOnceUsed ∧ ¬s.stopChClosed ∧ s.stopChBuffered < 1 then
      some { s with
        stopOnceUsed := true,
        stopChBuffered := s.stopChBuffered + 1,
        stopChClosed := true,
        ptReinitialized := true,
        stopReturned := true }
    else none

/-- Run a schedule of steps from a state; `none` if any step is blocked. -/
def schedRun (s : SchedState) : List SchedAction → Option SchedState
  | [] => some s
  | a :: rest => (schedStep s a).bind (fun s2 => schedRun s2 rest)

/-! ## Query streamer: internal/transport/http/server.go -/

/-- The row loop of `ChiServer.DataPointQuery`, writer failures absent.
Each list entry is one successful `Next()`: `some r` when `Value()`
succeeded, `none` when it failed (the row is logged and skipped, `i` not
incremented).  `i` counts items written; a comma precedes every item except
the first. -/
def streamLoop (encode : α → String) : List (Option α) → Nat → String
  | [], _ => ""
  | none :: rest, i => streamLoop encode rest i
  | some r :: rest, i =>
    (if 0 < i then "," else "") ++ encode r ++ streamLoop encode rest (i + 1)

/-- The full streamed body: opening bracket, the row loop from `i = 0`,
closing bracket. -/
def streamBody (encode : α → String) (rows : List (Option α)) : String :=
  "[" ++ streamLoop encode rows 0 ++ "]"

/-- Modelled from the spec's words, for comparison with `streamBody`: the
serialized items joined with a separating comma before every item except
the first. -/
def commaJoin : List String → String
  | [] => ""
  | s :: rest => s ++ String.join (rest.map (fun x => "," ++ x))

/-! ## Helper lemmas -/

theorem String.join_cons_eq (x : String) (xs : List String) :
    String.join (x :: xs) = x ++ String.join xs := by
  simp only [String.join_eq]
  exact String.ext (by simp)

theorem firstBlockedTag_eq_find (l : List String) :
    firstBlockedTag l = l.find? (fun t => t == "system" || t == "suspect") := by
  induction l with
  | nil => rfl
  | cons t rest ih =>
    by_cases h : t = "system" ∨ t = "suspect"
    · have hb : (t == "system" || t == "suspect") = true := by
        rcases h with rfl | rfl <;> simp
      rw [firstBlockedTag, if_pos h]
      exact (List.find?_cons_of_pos (p := fun t => t == "system" || t == "suspect") rest hb).symm
    · push_neg at h
      have hb : ¬ ((t == "system" || t == "suspect") = true) := by
        simp [h.1, h.2]
      rw [firstBlockedTag, if_neg (by push_neg; exact h), ih]
      exact (List.find?_cons_of_neg (p := fun t => t == "system" || t == "suspect") rest hb).symm

theorem firstBlockedTag_eq_none_iff (l : List String) :
    firstBlockedTag l = none ↔ ∀ t ∈ l, t ≠ "system" ∧ t ≠ "suspect" := by
  induction l with
  | nil => simp [firstBlockedTag]
  | cons t rest ih =>
    by_cases h : t = "system" ∨ t = "suspect"
    · rw [firstBlockedTag, if_pos h]
      simp only [List.mem_cons]
      constructor
      · intro hc
        exact absurd hc (by simp)
      · intro hall
        have := hall t (Or.inl rfl)
        exact absurd h (by push_neg; exact this)
    · push_neg at h
      rw [firstBlockedTag, if_neg (by push_neg; exact h), ih]
      simp only [List.mem_cons]
      constructor
      · intro hall t' ht'
        rcases ht' with rfl | hmem
        · exact h
        · exact hall t' hmem
      · intro hall t' ht'
        exact hall t' (Or.inr ht')

theorem firstBlockedTag_isSome_iff (l : List String) :
    (firstBlockedTag l).isSome ↔ ∃ t ∈ l, t = "system" ∨ t = "suspect" := by
  induction l with
  | nil => simp [firstBlockedTag]
  | cons t rest ih =>
    by_cases h : t = "system" ∨ t = "suspect"
    · rw [firstBlockedTag, if_pos h]
      simp only [Option.isSome_some, true_iff, List.mem_cons]
      exact ⟨t, Or.inl rfl, h⟩
    · rw [firstBlockedTag, if_neg h, ih]
      simp only [List.mem_cons]
      constructor
      · rintro ⟨t', hmem, ht'⟩
        exact ⟨t', Or.inr hmem, ht'⟩
      · rintro ⟨t', hmem, ht'⟩
        rcases hmem with rfl | hmem
        · exact absurd ht' h
        · exact ⟨t', hmem, ht'⟩

theorem streamLoop_pos (encode : α → String) (rows : List (Option α)) (i : Nat) :
    streamLoop encode rows (i + 1) =
      String.join (((rows.filterMap id).map encode).map (fun x => "," ++ x)) := by
  induction rows generalizing i with
  | nil => rfl
  | cons r rest ih =>
    cases r with
    | none => simpa [streamLoop] using ih i
    | some a =>
      have hi := ih (i + 1)
      simp only [streamLoop, List.filterMap_cons, id, List.map_cons,
        String.join_cons_eq, hi, String.append_assoc]
      rw [if_pos (Nat.succ_pos i)]

theorem streamLoop_zero (encode : α → String) (rows : List (Option α)) :
    streamLoop encode rows 0 = commaJoin ((rows.filterMap id).map encode) := by
  induction rows with
  | nil => rfl
  | cons r rest ih =>
    cases r with
    | none => simpa [streamLoop] using ih
    | some a =>
      simp only [streamLoop, List.filterMap_cons, id, List.map_cons, commaJoin,
        streamLoop_pos, String.append_assoc]
      simp [String.empty_append]

/-! ## Claim theorems -/

/-- Claim C5: for every successfully decoded record, classification first
rejects stale (timestamp strictly older than now minus 1 hour, regardless of
tags); otherwise rejects blocked-tag when some tag case-sensitively equals
"system" or "suspect", the first match in scan order determining the
reason; otherwise accepts — and every classification performs exactly one
write, to exactly one of the two destinations, with received-at assigned to
now by the pipeline. -/
theorem collect_admission (dp : ClientDataPoint) (now : Int) :
    (collect dp now).2 =
      [⟨if dp.time.value < now - 3600 ∨ ∃ t ∈ dp.tags.value, t = "system" ∨ t = "suspect"
          then "datapoint_discarded" else "datapoint",
        ⟨dp.time.value, dp.value.value, dp.tags.value, now⟩⟩] ∧
    ((collect dp now).1 = some RejectReason.stale ↔ dp.time.value < now - 3600) ∧
    (∀ t, (collect dp now).1 = some (RejectReason.blockedTag t) ↔
      ¬(dp.time.value < now - 3600) ∧
        dp.tags.value.find? (fun x => x == "system" || x == "suspect") = some t) ∧
    ((collect dp now).1 = none ↔
      ¬(dp.time.value < now - 3600) ∧ ∀ t ∈ dp.tags.value, t ≠ "system" ∧ t ≠ "suspect") := by
  by_cases hst : dp.time.value < now - 3600
  · refine ⟨?_, by simp [collect, hst], ?_, by simp [collect, hst]⟩
    · simp only [collect, if_pos hst]
      rw [if_pos (Or.inl hst)]
    · intro t
      simp [collect, hst]
  · cases hbt : firstBlockedTag dp.tags.value with
    | some t0 =>
      have hex : ∃ t ∈ dp.tags.value, t = "system" ∨ t = "suspect" := by
        rw [← firstBlockedTag_isSome_iff, hbt]
        rfl
      refine ⟨?_, by simp [collect, hst, hbt], ?_, ?_⟩
      · simp only [collect, if_neg hst, hbt]
        rw [if_pos (Or.inr hex)]
      · intro t
        rw [← firstBlockedTag_eq_find, hbt]
        simp [collect, hst, hbt]
      · have hne : ¬ ∀ t ∈ dp.tags.value, t ≠ "system" ∧ t ≠ "suspect" := by
          rw [← firstBlockedTag_eq_none_iff, hbt]
          simp
        simp [collect, hst, hbt, hne]
    | none =>
      have hall : ∀ t ∈ dp.tags.value, t ≠ "system" ∧ t ≠ "suspect" :=
        (firstBlockedTag_eq_none_iff dp.tags.value).mp hbt
      have hnex : ¬ ∃ t ∈ dp.tags.value, t = "system" ∨ t = "suspect" := by
        rw [← firstBlockedTag_isSome_iff, hbt]
        simp
      refine ⟨?_, by simp [collect, hst, hbt], ?_,
        by simp only [collect, if_neg hst, hbt]
           exact iff_of_true trivial ⟨hst, hall⟩⟩
      · simp only [collect, if_neg hst, hbt]
        rw [if_neg (by rintro (h | h); exacts [hst h, hnex h])]
      · intro t
        rw [← firstBlockedTag_eq_find, hbt]
        simp [collect, hst, hbt]

/-- Claim C6: after structural decoding, completeness of a candidate record
is verified in the order timestamp, measurement, tags, and the first field
not marked decoded produces the incomplete-record error naming that field;
in particular a body with decoded time and value but no tags field fails
naming "tags". -/
theorem isValid_checks_in_order :
    (∀ dp : ClientDataPoint,
      dp.isValid =
        match [("time", dp.time.processed), ("value", dp.value.processed),
            ("tags", dp.tags.processed)].find? (fun p => !p.2) with
        | some p => .error (p.1 ++ " field is not Processed")
        | none => .ok ()) ∧
    decodeDatapointBody "\x7b\"time\":1700000000,\"value\":[195,245,72,64]\x7d" =
      .error "invalid datapoint received: tags field is not Processed" := by
  constructor
  · rintro ⟨⟨tv, tp⟩, ⟨vv, vp⟩, ⟨gv, gp⟩⟩
    cases tp <;> cases vp <;> cases gp <;> rfl
  · rfl

/-- Claim C7: for every 32-bit float (every bit pattern below `2^32`,
NaN patterns included — no NaN or range check is applied), decoding the
measurement from its 4-byte little-endian encoding recovers exactly that
float: the round-trip law, exact at the bit level. -/
theorem float32_le_roundtrip (bits : Nat) (h : bits < 2 ^ 32) :
    float32FromLEBytes (float32ToBytes bits) = some bits := by
  simp only [float32ToBytes, float32FromLEBytes, leUint32, Option.some.injEq]
  omega

/-- Witness for the round-trip law at the bit pattern of float32 3.14. -/
theorem float32_le_roundtrip_witness :
    1078523331 < 2 ^ 32 ∧
      float32FromLEBytes (float32ToBytes 1078523331) = some 1078523331 :=
  ⟨by norm_num, float32_le_roundtrip 1078523331 (by norm_num)⟩

/-- Claim C8: for every cursor, the streamed body is an opening bracket,
the serialized objects of exactly the successfully extracted rows in cursor
order with a comma before every item except the first (failed extractions
skipped and excluded from the comma bookkeeping), and a closing bracket; an
empty cursor yields exactly "[]" and a 3-row cursor yields the three items
with single separating commas. -/
theorem streamBody_spec (encode : α → String) (rows : List (Option α)) :
    streamBody encode rows = "[" ++ commaJoin ((rows.filterMap id).map encode) ++ "]" ∧
    streamBody encode ([] : List (Option α)) = "[]" ∧
    ∀ r1 r2 r3 : α, streamBody encode [some r1, some r2, some r3] =
      "[" ++ encode r1 ++ "," ++ encode r2 ++ "," ++ encode r3 ++ "]" := by
  refine ⟨by rw [streamBody, streamLoop_zero], rfl, ?_⟩
  intro r1 r2 r3
  simp [streamBody, streamLoop, String.append_assoc]

/-- Claim C9: for every record written — accepted or discarded — the point
is persisted under the record's producer-supplied timestamp, never the
received-at time, which is stored only as an ordinary field alongside value
and tags; in particular the persisted timestamp is unchanged when
received-at varies. -/
theorem repoWrite_uses_producer_timestamp (point : DtoDataPoint) (table : String) (ra : Int) :
    (repoWrite point table).timestamp = point.time ∧
    (repoWrite point table).fields =
      [("value", .num point.value), ("tags", .strs point.tags),
        ("received_at", .time point.receivedAt)] ∧
    repoWriteAccepted point = repoWrite point "datapoint" ∧
    repoWriteDiscard point = repoWrite point "datapoint_discarded" ∧
    (repoWrite { point with receivedAt := ra } table).timestamp = point.time :=
  ⟨rfl, rfl, rfl, rfl, rfl⟩

/-- Claim C1 (refuting evaluation): in the started generation, the schedule
"tick fires; Stop() runs to completion; the loop receives the pending tick"
is executable — after `Stop()` has returned the loop is still running, the
ticker is still active (the listener goroutine has not yet stopped it), the
struct was already reinitialized, and one further task invocation occurs
strictly after `Stop()` returned, before any new `Start()`.  So `Stop()`
does not wait for loop or task termination. -/
theorem stop_signal_does_not_wait :
    (schedRun startedState [.tickFire, .stopCall]).map
        (fun s => (s.stopReturned, s.loopRunning, s.tickerActive, s.ptReinitialized)) =
      some (true, true, true, true) ∧
    (schedRun startedState [.tickFire, .stopCall, .loopRecvTick]).map
        (fun s => (s.invocationsAfterStopReturn, s.loopRunning)) = some (1, true) := by
  exact ⟨rfl, rfl⟩

/-- Claim C2 (refuting evaluation): the producer body with the
string-encoded time "1700000000" fails to decode — `strconv.ParseInt`
receives the raw JSON bytes including the quotes — so `Collect` returns an
error and performs NO write; with a bare integer time literal the very same
pipeline performs exactly one write to the accepted destination carrying
the bit pattern of float32 3.14 and tags ["ok"]. -/
theorem quoted_time_fails_decode :
    dataPointTimeUnmarshalJSON "\"1700000000\"" =
      .error "failed to parse DataPointTime, raw: \"1700000000\"" ∧
    collectFromBody
        "\x7b\"time\":\"1700000000\",\"value\":[195,245,72,64],\"tags\":[\"ok\"]\x7d"
        1700000000 =
      .error ("failed to read datapoint: failed to get datapoint from data server: " ++
        "failed to decode datapoint body, failed to decode response body, " ++
        "failed to parse DataPointTime, raw: \"1700000000\"") ∧
    collectFromBody
        "\x7b\"time\":1700000000,\"value\":[195,245,72,64],\"tags\":[\"ok\"]\x7d"
        1700000000 =
      .ok (none, [⟨"datapoint", ⟨1700000000, 1078523331, ["ok"], 1700000000⟩⟩]) := by
  exact ⟨rfl, rfl, rfl⟩

/-- Claim C3 (refuting evaluation): for the measurement field "[1,2,3]" the
decoded byte array has length 3, but the decode error reports 7 — the
length of the raw JSON text (`len(data)`), not the observed number of bytes
in the array (`len(b)`). -/
theorem value_length_error_reports_raw_json_length :
    jsonUnmarshalByteArray "[1,2,3]".data = some [1, 2, 3] ∧
    dataPointValueUnmarshalJSON "[1,2,3]" = .error (.invalidLength 7) ∧
    (ValueDecodeErr.invalidLength 7).message =
      "invalid data length for DataPointValue, expected 4 bytes, got 7 bytes" ∧
    (7 : Nat) ≠ 3 := by
  exact ⟨rfl, rfl, rfl, by decide⟩

/-- Claim C4 (refuting evaluation): with `until` present and `start` absent
the SQL text contains an " AND " conjunction but no WHERE keyword — the
query is not well-formed, so an until-only request cannot succeed; the
other three parameter combinations produce well-formed bounds with the
inclusive operators. -/
theorem query_until_without_start_malformed :
    dataPointQuerySQL none (some 0) =
      "SELECT * FROM datapoint AND time <= $until ORDER BY time DESC" ∧
    (" AND ".data <:+: (dataPointQuerySQL none (some 0)).data) ∧
    ¬ ("WHERE".data <:+: (dataPointQuerySQL none (some 0)).data) ∧
    dataPointQuerySQL (some 0) (some 0) =
      "SELECT * FROM datapoint WHERE time >= $start AND time <= $until ORDER BY time DESC" ∧
    dataPointQuerySQL (some 0) none =
      "SELECT * FROM datapoint WHERE time >= $start ORDER BY time DESC" ∧
    dataPointQuerySQL none none = "SELECT * FROM datapoint ORDER BY time DESC" := by
  exact ⟨rfl, by decide, by decide, rfl, rfl, rfl⟩

/-- Claim C10: calling Stop() on a never-started instance neither blocks
nor aborts — the capacity-1 stop channel absorbs the send with no receiver
— and leaves the instance exactly in the freshly reinitialized state, with
both one-shot guards unused, so the next Start() begins a new generation. -/
theorem stop_before_start_safe :
    PeriodicTrigger.StopCall newPeriodicTrigger = some newPeriodicTrigger ∧
    newPeriodicTrigger.stopCh = ⟨1, 0, false⟩ ∧
    newPeriodicTrigger.startOnceUsed = false ∧
    newPeriodicTrigger.stopOnceUsed = false :=
  ⟨rfl, rfl, rfl, rfl⟩

end OCData
